import Mathlib

set_option maxRecDepth 8000

/-!
Verification of the Khmer text front end of StableTTS.

The Python sources embedded here are:
  - text/khmer_word_segmentation.py  (lexicon-based longest matching segmentation)
  - text/khmer_textnorm.py           (text normalization: numbers, dates, fractions, ...)
  - text/khmer.py                    (khmer_g2p grapheme-to-phoneme front end)

Strings are modelled as `List Char` (Python `str` is a sequence of code points,
matching Lean `Char` lists).  Python functions that can raise are modelled with
`Except String`.  Loops whose progress is data dependent are modelled with a
fuel argument that provably suffices.
-/

/-- Model of Python `str.isspace` / `\s` for the ASCII whitespace characters
used by this code base (`str.strip()` and the `\s` class on the inputs that
occur here). -/
def pyIsSpace (c : Char) : Bool :=
  c = ' ' || c = '\t' || c = '\n' || c = '\r' || c = '\x0b' || c = '\x0c'

/-! ## text/khmer_word_segmentation.py -/

/-- The inner loop `for length in range(max_try, 0, -1): if text[i:i+length] in
word_set: ...` of `longest_matching`: the first (longest) prefix length in
`max_try, ..., 1` whose prefix is in the word set. -/
def findLongest (s : List Char) (ws : List (List Char)) : Nat → Option Nat
  | 0 => none
  | k+1 => if s.take (k+1) ∈ ws then some (k+1) else findLongest s ws k

/-- Main loop of `longest_matching` (greedy left-to-right).  Each iteration
consumes at least one character, so `fuel = length of the text` suffices. -/
def lmAux (ws : List (List Char)) (ml : Nat) : Nat → List Char → List (List Char)
  | 0, _ => []
  | _+1, [] => []
  | fuel+1, c :: rest =>
    match findLongest (c :: rest) ws (min ml (c :: rest).length) with
    | some k => (c :: rest).take k :: lmAux ws ml fuel ((c :: rest).drop k)
    | none => [c] :: lmAux ws ml fuel rest

/-- Embeds `longest_matching(text, word_set, max_word_len)`. -/
def longest_matching (text : List Char) (ws : List (List Char)) (ml : Nat) :
    List (List Char) :=
  lmAux ws ml text.length text

/-- The inner loop of `reverse_longest_matching`: the first (longest) suffix
length in `max_try, ..., 1` whose suffix `pre[len(pre)-length:]` is in the word
set, where `pre` is the not-yet-consumed left part `text[:i]`. -/
def findLongestRev (pre : List Char) (ws : List (List Char)) : Nat → Option Nat
  | 0 => none
  | k+1 =>
    if pre.drop (pre.length - (k+1)) ∈ ws then some (k+1) else findLongestRev pre ws k

/-- Main loop of `reverse_longest_matching` (greedy right-to-left over the
remaining left part `pre`; `result.insert(0, ...)` builds the output from the
right, modelled by appending the matched suffix on the right). -/
def rlmAux (ws : List (List Char)) (ml : Nat) : Nat → List Char → List (List Char)
  | 0, _ => []
  | _+1, [] => []
  | fuel+1, c :: rest =>
    match findLongestRev (c :: rest) ws (min ml (c :: rest).length) with
    | some k =>
      rlmAux ws ml fuel ((c :: rest).take ((c :: rest).length - k)) ++
        [(c :: rest).drop ((c :: rest).length - k)]
    | none =>
      rlmAux ws ml fuel ((c :: rest).take ((c :: rest).length - 1)) ++
        [(c :: rest).drop ((c :: rest).length - 1)]

/-- Embeds `reverse_longest_matching(text, word_set, max_word_len)`. -/
def reverse_longest_matching (text : List Char) (ws : List (List Char)) (ml : Nat) :
    List (List Char) :=
  rlmAux ws ml text.length text

/-- Average token length `sum(len(w) for w in l) / len(l)` used by
`bidirectional_matching`.  The comparison point is only reached when both
candidate lists have equal, positive length, where exact rational division
orders the same way as Python float division. -/
def avgTokenLen (l : List (List Char)) : ℚ :=
  ((l.map List.length).sum : ℚ) / (l.length : ℚ)

/-- Embeds `bidirectional_matching(text, word_set, max_word_len)`. -/
def bidirectional_matching (text : List Char) (ws : List (List Char)) (ml : Nat) :
    List (List Char) :=
  if text = [] then []
  else
    let f := longest_matching text ws ml
    let r := reverse_longest_matching text ws ml
    if f = r then f
    else if f.length < r.length then f
    else if r.length < f.length then r
    else if avgTokenLen f > avgTokenLen r then f
    else if avgTokenLen r > avgTokenLen f then r
    else f

/-- Embeds `segment_khmer_text(text, method, word_set, max_word_len)`.  The
`word_set`/`max_word_len` arguments stand for the explicitly passed sets (the
module-global default is loaded from a lexicon file).  `raise ValueError` is
modelled as `Except.error`. -/
def segment_khmer_text (text : List Char) (method : String)
    (ws : List (List Char)) (ml : Nat) : Except String (List Char) :=
  if text = [] || text.all pyIsSpace then .ok text
  else
    let t := text.filter (fun c => c ≠ ' ')
    if ws = [] then .ok t
    else if method = "forward" then .ok (List.intercalate [' '] (longest_matching t ws ml))
    else if method = "reverse" then
      .ok (List.intercalate [' '] (reverse_longest_matching t ws ml))
    else if method = "bidirectional" then
      .ok (List.intercalate [' '] (bidirectional_matching t ws ml))
    else .error ("Unknown method: " ++ method ++ ". Use forward, reverse, or bidirectional")

/-- Removal of internal spaces, `text.replace(' ', '')`. -/
def despace (text : List Char) : List Char := text.filter (fun c => c ≠ ' ')

/-! ## text/khmer_textnorm.py : number conversion

`_CARDINAL_TESTDATA` is loaded from optional TSV files (absent from the
sources); it is modelled as a parameter `td : Int → Option String` standing for
the combination of `use_testdata` and the loaded dictionary.  Python dict
subscription `KHMER_NUMBERS[k]`, which raises KeyError when absent, is modelled
with `Except`. -/

/-- The KHMER_NUMBERS dictionary. -/
def khmerNumbersList : List (Nat × String) :=
  [(0, "សូន្យ"), (1, "មួយ"), (2, "ពីរ"), (3, "បី"), (4, "បួន"), (5, "ប្រាំ"),
   (6, "ប្រាំមួយ"), (7, "ប្រាំពិល"), (8, "ប្រាំបី"), (9, "ប្រាំបួន"), (10, "ដប់"),
   (11, "ដប់ មួយ"), (12, "ដប់ ពីរ"), (13, "ដប់ បី"), (14, "ដប់ បួន"), (15, "ដប់ ប្រាំ"),
   (16, "ដប់ ប្រាំមួយ"), (17, "ដប់ ប្រាំពិល"), (18, "ដប់ ប្រាំបី"), (19, "ដប់ ប្រាំបួន"),
   (20, "ម្ភៃ"), (30, "សាមសិប"), (40, "សែសិប"), (50, "ហាសិប"), (60, "ហុកសិប"),
   (70, "ចិតសិប"), (80, "ប៉ែតសិប"), (90, "កៅសិប"), (100, "រយ"), (1000, "ពាន់"),
   (10000, "ម៉ឺន"), (100000, "សែន"), (1000000, "លាន"), (10000000, "កោដិ"),
   (1000000000, "ប៊ីលាន"), (1000000000000, "ទ្រីលាន")]

/-- Lookup `n in KHMER_NUMBERS` / `KHMER_NUMBERS.get(n)`. -/
def lookupKN (n : Nat) : Option String := khmerNumbersList.lookup n

/-- Python `KHMER_NUMBERS[n]` (raises KeyError when absent). -/
def getKN (n : Nat) : Except String String :=
  match lookupKN n with
  | some s => .ok s
  | none => .error "KeyError: KHMER_NUMBERS"

/-- Body of `number_to_khmer_words` for the nonnegative case, after the
testdata and negative checks.  The recursion (hundreds, thousands, ...) always
calls itself on strictly smaller values, so a fuel of `num` suffices; each
recursive Python call re-enters the full function, hence re-checks `td` and the
dictionary first. -/
def coreNum (td : Int → Option String) : Nat → Nat → Except String String
  | 0, _ => .error "fuel"
  | fuel+1, n =>
    match td (n : Int) with
    | some s => .ok s
    | none =>
      match lookupKN n with
      | some s => .ok s
      | none =>
        if 21 ≤ n ∧ n < 100 then
          let tens := (n / 10) * 10
          let ones := n % 10
          if ones = 0 then getKN tens
          else do
            let t ← getKN tens
            let o ← getKN ones
            .ok (t ++ " " ++ o)
        else if 100 ≤ n ∧ n < 1000 then do
          let a ← coreNum td fuel (n / 100)
          let u ← getKN 100
          if n % 100 = 0 then .ok (a ++ " " ++ u)
          else do
            let b ← coreNum td fuel (n % 100)
            .ok (a ++ " " ++ u ++ " " ++ b)
        else if 1000 ≤ n ∧ n < 10000 then do
          let a ← coreNum td fuel (n / 1000)
          let u ← getKN 1000
          if n % 1000 = 0 then .ok (a ++ " " ++ u)
          else do
            let b ← coreNum td fuel (n % 1000)
            .ok (a ++ " " ++ u ++ " " ++ b)
        else if 10000 ≤ n ∧ n < 100000 then do
          let a ← coreNum td fuel (n / 10000)
          let u ← getKN 10000
          if n % 10000 = 0 then .ok (a ++ " " ++ u)
          else do
            let b ← coreNum td fuel (n % 10000)
            .ok (a ++ " " ++ u ++ " " ++ b)
        else if 100000 ≤ n ∧ n < 1000000 then do
          let a ← coreNum td fuel (n / 100000)
          let u ← getKN 100000
          if n % 100000 = 0 then .ok (a ++ " " ++ u)
          else do
            let b ← coreNum td fuel (n % 100000)
            .ok (a ++ " " ++ u ++ " " ++ b)
        else if 1000000 ≤ n ∧ n < 10000000 then do
          let a ← coreNum td fuel (n / 1000000)
          let u ← getKN 1000000
          if n % 1000000 = 0 then .ok (a ++ " " ++ u)
          else do
            let b ← coreNum td fuel (n % 1000000)
            .ok (a ++ " " ++ u ++ " " ++ b)
        else .ok (Nat.repr n)

/-- Embeds `number_to_khmer_words(num, use_testdata)`; `td` models the pair of
`use_testdata` and `_CARDINAL_TESTDATA` (the empty function when the testdata
files are absent or `use_testdata` is false). -/
def number_to_khmer_words (td : Int → Option String) (num : Int) : Except String String :=
  match td num with
  | some s => .ok s
  | none =>
    if num < 0 then (coreNum td (num.natAbs + 1) num.natAbs).map (fun s => "ដក " ++ s)
    else coreNum td (num.toNat + 1) num.toNat

/-- The empty override map: no cardinal testdata entry exists. -/
def noTestdata : Int → Option String := fun _ => none

/-! ## Regex machinery

The normalization passes use `re.sub` with fixed patterns.  Each pattern is
embedded as a matcher `List Char → Nat → Option (end, groups)` that decides
whether the pattern matches at a given start position (with the pattern's exact
greedy/backtracking order), and a generic driver replays the `re.sub` scan:
leftmost match, replace, continue after the match. -/

/-- Python regex class `\d` (decimal digits; of the scripts occurring in this
code base: ASCII and Khmer digits). -/
def isKhmerDigit (c : Char) : Bool := 0x17E0 ≤ c.toNat && c.toNat ≤ 0x17E9

def pyIsDigit (c : Char) : Bool := c.isDigit || isKhmerDigit c

/-- Numeric value of a digit accepted by `int()` here. -/
def pyDigitVal (c : Char) : Nat :=
  if isKhmerDigit c then c.toNat - 0x17E0 else c.toNat - 48

/-- Python `int()` on a (validated) digit string. -/
def toNatDigits (s : List Char) : Nat := s.foldl (fun a c => a * 10 + pyDigitVal c) 0

/-- Python regex class `\w` for the character sets appearing in this code base:
ASCII alphanumerics, underscore, Khmer letters and Khmer digits. -/
def pyIsWordChar (c : Char) : Bool :=
  c.isAlphanum || c = '_' || (0x1780 ≤ c.toNat && c.toNat ≤ 0x17B3) || isKhmerDigit c

def isWordAt (s : List Char) (i : Nat) : Bool :=
  match s.get? i with
  | some c => pyIsWordChar c
  | none => false

/-- Python `\b`: a word boundary between positions `i-1` and `i` (out of range
counts as non-word). -/
def wordBoundaryAt (s : List Char) (i : Nat) : Bool :=
  (if i = 0 then false else isWordAt s (i-1)) != isWordAt s i

/-- Python slice `s[i:i+len]` (clamped at the end like Python slices). -/
def sliceLC (s : List Char) (i len : Nat) : List Char := (s.drop i).take len

def charAt (s : List Char) (i : Nat) : Option Char := s.get? i

/-- Exactly `len` digit characters at position `i`. -/
def digitsAt (s : List Char) (i len : Nat) : Bool :=
  decide (i + len ≤ s.length) && (sliceLC s i len).all pyIsDigit

/-- Length of the maximal digit run starting at `i` (for greedy `\d+`). -/
def digitRunLen (s : List Char) (i : Nat) : Nat :=
  ((s.drop i).takeWhile pyIsDigit).length

def spaceRunLen (s : List Char) (i : Nat) : Nat :=
  ((s.drop i).takeWhile pyIsSpace).length

def wordRunLen (s : List Char) (i : Nat) : Nat :=
  ((s.drop i).takeWhile pyIsWordChar).length

/-- First success over a list of candidates (backtracking order). -/
def firstSome {α β : Type} (f : α → Option β) : List α → Option β
  | [] => none
  | a :: rest =>
    match f a with
    | some b => some b
    | none => firstSome f rest

def joinSp (l : List (List Char)) : List Char := List.intercalate [' '] l

def isLitAt (s : List Char) (i : Nat) (lit : List Char) : Bool :=
  lit.isPrefixOf (s.drop i)

/-- Python substring containment `pat in s`. -/
def containsSub (pat : List Char) : List Char → Bool
  | [] => pat.isPrefixOf []
  | c :: rest => pat.isPrefixOf (c :: rest) || containsSub pat rest

/-- Case-insensitive literal at position `i` (`lit` given lowercase; models
`re.IGNORECASE` for ASCII). -/
def ciLitAt (s : List Char) (i : Nat) (lit : List Char) : Bool :=
  (sliceLC s i lit.length).map Char.toLower = lit

/-- Python `str.replace(pat, rep)`: leftmost non-overlapping replacement. -/
def replaceAllAux (pat rep : List Char) : Nat → List Char → List Char
  | 0, s => s
  | f+1, s =>
    if pat ≠ [] ∧ pat.isPrefixOf s then rep ++ replaceAllAux pat rep f (s.drop pat.length)
    else
      match s with
      | [] => []
      | c :: rest => c :: replaceAllAux pat rep f rest

def replaceAllStr (pat rep s : List Char) : List Char := replaceAllAux pat rep s.length s

/-- Scan for the leftmost position at or after `i` where the matcher fires;
fuel counts the remaining candidate start positions. -/
def findMatchAux {γ : Type} (t : List Char → Nat → Option (Nat × γ)) (s : List Char) :
    Nat → Nat → Option (Nat × Nat × γ)
  | 0, _ => none
  | f+1, i =>
    match t s i with
    | some (e, g) => some (i, e, g)
    | none => findMatchAux t s f (i+1)

/-- The `re.sub` loop: find the leftmost match from `pos`, emit the text before
it, the replacement, and continue after the match.  The matchers used here
never produce empty matches, so a fuel of `length + 1` suffices. -/
def reSubAux {γ : Type} (t : List Char → Nat → Option (Nat × γ))
    (repl : List Char → Nat → Nat → γ → Except String (List Char)) (s : List Char) :
    Nat → Nat → Except String (List Char)
  | 0, pos => .ok (s.drop pos)
  | f+1, pos =>
    match findMatchAux t s (s.length + 1 - pos) pos with
    | none => .ok (s.drop pos)
    | some (i, e, g) => do
      let r ← repl s i e g
      let rest ← reSubAux t repl s f e
      .ok ((s.take i).drop pos ++ r ++ rest)

/-- Embeds `re.sub(pattern, repl, s)` for the matcher `t` of `pattern`. -/
def reSubM {γ : Type} (t : List Char → Nat → Option (Nat × γ))
    (repl : List Char → Nat → Nat → γ → Except String (List Char))
    (s : List Char) : Except String (List Char) :=
  reSubAux t repl s (s.length + 1) 0

/-! ## Date and fraction passes of normalize_khmer_text -/

/-- The KHMER_MONTHS dictionary. -/
def khmerMonthsList : List (Nat × String) :=
  [(1, "មករា"), (2, "កុម្ភៈ"), (3, "មិនា"), (4, "មេសា"), (5, "ឧសភា"), (6, "មិថុនា"),
   (7, "កក្កដា"), (8, "សីហា"), (9, "កញ្ញា"), (10, "តុលា"), (11, "វិច្ឆិកា"), (12, "ធ្នូ")]

/-- Python `KHMER_MONTHS.get(month, f"ខែ{month}")`. -/
def getKhmerMonth (m : Nat) : List Char :=
  match khmerMonthsList.lookup m with
  | some s => s.data
  | none => "ខែ".data ++ (Nat.repr m).data

/-- Matcher of the year-date pattern
`\b(\d{1,2})[slash or dash](\d{1,2})[slash or dash](\d{2,4})\b` with the regex backtracking order
(each counted group greedy, longer first). -/
def tryYearDate (s : List Char) (i : Nat) :
    Option (Nat × (List Char × List Char × List Char)) :=
  if wordBoundaryAt s i then
    firstSome (fun a =>
      if digitsAt s i a then
        match charAt s (i+a) with
        | some c1 =>
          if c1 = '/' || c1 = '-' then
            firstSome (fun b =>
              if digitsAt s (i+a+1) b then
                match charAt s (i+a+1+b) with
                | some c2 =>
                  if c2 = '/' || c2 = '-' then
                    firstSome (fun c =>
                      if digitsAt s (i+a+1+b+1) c && wordBoundaryAt s (i+a+1+b+1+c) then
                        some (i+a+1+b+1+c,
                          (sliceLC s i a, sliceLC s (i+a+1) b, sliceLC s (i+a+1+b+1) c))
                      else none) [4, 3, 2]
                  else none
                | none => none
              else none) [2, 1]
          else none
        | none => none
      else none) [2, 1]
  else none

/-- Embeds the closure `replace_year_date` of `normalize_khmer_text` (with the
default `normalize_dates=True`): a three-part match whose month lies in 1..12
becomes day words, month name and year words; otherwise the match `m0` is kept.
-/
def replace_year_date (td : Int → Option String) (m0 g1 g2 g3 : List Char) :
    Except String (List Char) :=
  let day := toNatDigits g1
  let month := toNatDigits g2
  let year := toNatDigits g3
  if 1 ≤ month ∧ month ≤ 12 then do
    let dk ← number_to_khmer_words td (day : Int)
    let yk ← number_to_khmer_words td (year : Int)
    .ok (dk.data ++ " ខែ ".data ++ getKhmerMonth month ++ " ឆ្នាំ ".data ++ yk.data)
  else .ok m0

/-- The negative lookahead `(?!\s*[slash or dash]\d)` at position `e`: it rejects iff some
run of whitespace is followed by a slash or dash and then a digit.  Since the
skipped characters must be whitespace and the following one must not be, only
the maximal whitespace run can witness it. -/
def lookaheadSD (s : List Char) (e : Nat) : Bool :=
  let w := spaceRunLen s e
  match charAt s (e+w), charAt s (e+w+1) with
  | some c, some d => (c = '/' || c = '-') && pyIsDigit d
  | _, _ => false

/-- Matcher of the fraction pattern `\b(-?\d+)/(\d+)\b(?!\s*[slash or dash]\d)`.
Greedy `\d+` runs are maximal: any shorter run leaves a digit right after,
which fails the following element (`/` or trailing `\b`), so no backtracking
case survives. -/
def tryFraction (s : List Char) (i : Nat) : Option (Nat × (List Char × List Char)) :=
  if wordBoundaryAt s i then
    let attempt := fun (start : Nat) =>
      let d1 := digitRunLen s start
      if d1 = 0 then none
      else
        match charAt s (start + d1) with
        | some '/' =>
          let d2 := digitRunLen s (start + d1 + 1)
          if d2 = 0 then none
          else
            let e := start + d1 + 1 + d2
            if wordBoundaryAt s e && !(lookaheadSD s e) then
              some (e, (sliceLC s i (start + d1 - i), sliceLC s (start + d1 + 1) d2))
            else none
        | _ => none
    if charAt s i = some '-' then attempt (i+1) else attempt i
  else none

/-- Embeds the closure `replace_fraction_safe` of `normalize_khmer_text`: the
match is always rewritten as "numerator លើ denominator" (dates with years were
already handled). -/
def replace_fraction_safe (td : Int → Option String) (g1 g2 : List Char) :
    Except String (List Char) := do
  let numVal := toNatDigits (g1.dropWhile (fun c => c = '-'))
  let denVal := toNatDigits g2
  let isNeg := g1.head? = some '-'
  let nk ← number_to_khmer_words td (numVal : Int)
  let dk ← number_to_khmer_words td (denVal : Int)
  .ok ((if isNeg then "ដក ".data else []) ++ nk.data ++ " លើ ".data ++ dk.data)

/-- Matcher of the no-year date pattern `\b(\d{1,2})[slash or dash](\d{1,2})\b(?!\s*[slash or dash]\d)`. -/
def tryNoYearDate (s : List Char) (i : Nat) : Option (Nat × (List Char × List Char)) :=
  if wordBoundaryAt s i then
    firstSome (fun a =>
      if digitsAt s i a then
        match charAt s (i+a) with
        | some c1 =>
          if c1 = '/' || c1 = '-' then
            firstSome (fun b =>
              if digitsAt s (i+a+1) b && wordBoundaryAt s (i+a+1+b) &&
                  !(lookaheadSD s (i+a+1+b)) then
                some (i+a+1+b, (sliceLC s i a, sliceLC s (i+a+1) b))
              else none) [2, 1]
          else none
        | none => none
      else none) [2, 1]
  else none

/-- The date-context words looked for by `replace_no_year_date`. -/
def dateContextWords : List String := ["date", "ngày", "day", "tháng", "month"]

/-- Embeds the closure `replace_no_year_date` of `normalize_khmer_text` (with
the default `normalize_dates=True`): keep the match if the surrounding ±10
characters contain "លើ" (already a fraction); otherwise rewrite as a day/month
date only when day and month are plausible and there is date context or the
day exceeds 12.  `s` is the text being scanned (the closure reads the enclosing
`text` variable), `start`/`e` are `match.start()`/`match.end()`. -/
def replace_no_year_date (td : Int → Option String) (s : List Char) (start e : Nat)
    (g1 g2 : List Char) : Except String (List Char) :=
  let m0 := sliceLC s start (e - start)
  if containsSub "លើ".data (sliceLC s (start - 10) (e + 10 - (start - 10))) then .ok m0
  else
    let day := toNatDigits g1
    let month := toNatDigits g2
    let ctxBefore := (sliceLC s (start - 20) (start - (start - 20))).map Char.toLower
    let ctxAfter := (sliceLC s e 20).map Char.toLower
    let hasCtx := dateContextWords.any (fun w => containsSub w.data (ctxBefore ++ ctxAfter))
    if (1 ≤ month ∧ month ≤ 12 ∧ 1 ≤ day ∧ day ≤ 31) ∧ (hasCtx ∨ 12 < day) then do
      let dk ← number_to_khmer_words td (day : Int)
      .ok (dk.data ++ " ខែ ".data ++ getKhmerMonth month)
    else .ok m0

/-! ## Remaining normalization passes -/

/-- Python unicode `str.isalpha` for the scripts occurring here. -/
def pyIsAlpha (c : Char) : Bool :=
  c.isAlpha || (0x1780 ≤ c.toNat && c.toNat ≤ 0x17B3)

/-- Python `str.split(sep)` for a single-character separator. -/
def splitOnChar (sep : Char) : List Char → List (List Char)
  | [] => [[]]
  | c :: rest =>
    match splitOnChar sep rest with
    | [] => [[c]]
    | w :: ws => if c = sep then [] :: w :: ws else (c :: w) :: ws

/-- Greedy loop `(?:[._]\w+)*` of the email pattern starting after the first
`\w+` run: the only viable end of group 1 (its alphabet excludes the following
`@`, so backtracking cannot produce another end at an `@`). -/
def emailGroup1End (s : List Char) : Nat → Nat → Nat
  | 0, q => q
  | f+1, q =>
    match charAt s q with
    | some c =>
      if (c = '.' || c = '_') && 0 < wordRunLen s (q+1) then
        emailGroup1End s f (q + 1 + wordRunLen s (q+1))
      else q
    | none => q

/-- Matcher of the email pattern with groups (username, domain). -/
def tryEmail (s : List Char) (i : Nat) : Option (Nat × (List Char × List Char)) :=
  let r0 := wordRunLen s i
  if r0 = 0 then none
  else
    let p := emailGroup1End s s.length (i + r0)
    if charAt s p = some '@' then
      let m := ((s.drop (p+1)).takeWhile (fun c => pyIsWordChar c || c = '.' || c = '-')).length
      if m = 0 then none
      else some (p + 1 + m, (sliceLC s i (p - i), sliceLC s (p+1) m))
    else none

/-- Per-character conversion of the email username in `replace_email`. -/
def emailUserToken (td : Int → Option String) (c : Char) : Except String (List Char) :=
  if pyIsAlpha c then .ok (c.toLower :: "_letter-en".data)
  else if pyIsDigit c then do
    let w ← number_to_khmer_words td ((pyDigitVal c : Nat) : Int)
    .ok w.data
  else .ok [c]

/-- Domain parts kept verbatim by `replace_email`. -/
def domainKeepList : List (List Char) := ["com".data, "org".data, "net".data, "edu".data]

def domainPartTokens (part : List Char) : List (List Char) :=
  if part ∈ domainKeepList then [part]
  else part.map (fun c => if pyIsAlpha c then c.toLower :: "_letter-en".data else [c])

/-- Embeds the `replace_email` closure of `normalize_electronic`. -/
def replace_email (td : Int → Option String) (user dom : List Char) :
    Except String (List Char) := do
  let userToks ← user.mapM (emailUserToken td)
  let domToks := (splitOnChar '.' dom).foldl
    (fun acc part => acc ++ domainPartTokens part ++ ["ដត់".data]) []
  .ok (joinSp userToks ++ " អ៊ែត ".data ++ joinSp domToks.dropLast)

def wwwKhmer : List Char := "ដាប់ប៊លយូ ដាប់ប៊លយូ ដាប់ប៊លយូ ដត់ ".data

/-- Matcher of the URL pattern (http, optional s, ://, then a nonempty run of
word chars, dots and dashes). -/
def tryUrl (s : List Char) (i : Nat) : Option (Nat × Unit) :=
  if isLitAt s i "http".data then
    let j := if charAt s (i+4) = some 's' then i+5 else i+4
    if isLitAt s j "://".data then
      let m := ((s.drop (j+3)).takeWhile (fun c => pyIsWordChar c || c = '.' || c = '-')).length
      if m = 0 then none else some (j + 3 + m, ())
    else none
  else none

/-- Embeds `normalize_electronic(text)`; on `None` the first `re.sub` raises
TypeError, which the caller models at the dispatch level. -/
def normalize_electronic (td : Int → Option String) (s : List Char) :
    Except String (List Char) := do
  let t1 ← reSubM tryEmail (fun _ _ _ g => replace_email td g.1 g.2) s
  reSubM tryUrl
    (fun s i e _ => .ok (replaceAllStr "www.".data wwwKhmer (sliceLC s i (e - i)))) t1

/-- The EMOTICONS_MAP dictionary in insertion order. -/
def emoticonsList : List (String × String) :=
  [(":)", "មុខ ញញឹម"), (":-)", "មុខ ញញឹម"), ("=)", "មុខ ញញឹម"), (":(", "មុខ ក្រៀម"),
   (":-(", "មុខ ក្រៀម"), (":\x27(", "មុខ យំ"), (":\x27)", "មុខ យំ សើច"),
   (";-)", "មុខ មិច ភ្នែក"), (":-P", "មុខ ញញឹម លៀន អណ្ដាត"), (":-D", "មុខ សើច"),
   (":-O", "មុខ រន្ធត់"), (">:-)", "មុខ អាក្រក់"), (":-@", "មុខ ខឹង"),
   ("☹", "មុខ ក្រមូវ"), ("☺", "មុខ ញញឹម"), ("☻", "មុខ ញញឹម")]

/-- Embeds `normalize_emoticons(text)`: chained `str.replace` in dict order. -/
def normalize_emoticons (s : List Char) : List Char :=
  emoticonsList.foldl (fun t p => replaceAllStr p.1.data p.2.data t) s

/-- Advances allowed by the optional separator `[-.\s]?` at position `p`
(greedy: a present separator is consumed first, backtracking to zero). -/
def sepOptAdv (s : List Char) (p : Nat) : List Nat :=
  match charAt s p with
  | some c => if c = '-' || c = '.' || pyIsSpace c then [1, 0] else [0]
  | none => [0]

/-- First alternative of the telephone pattern, with trailing boundary. -/
def tryPhoneA (s : List Char) (i : Nat) : Option Nat :=
  if charAt s i = some '0' && digitsAt s (i+1) 2 then
    firstSome (fun k1 =>
      if digitsAt s (i+3+k1) 3 then
        firstSome (fun k2 =>
          firstSome (fun L =>
            if digitsAt s (i+3+k1+3+k2) L && wordBoundaryAt s (i+3+k1+3+k2+L) then
              some (i+3+k1+3+k2+L)
            else none) [4, 3]) (sepOptAdv s (i+3+k1+3))
      else none) (sepOptAdv s (i+3))
  else none

/-- Second alternative of the telephone pattern, with trailing boundary. -/
def tryPhoneB (s : List Char) (i : Nat) : Option Nat :=
  let st := if charAt s i = some '+' then i+1 else i
  firstSome (fun L0 =>
    if digitsAt s st L0 then
      firstSome (fun k1 =>
        firstSome (fun L1 =>
          if digitsAt s (st+L0+k1) L1 then
            firstSome (fun k2 =>
              firstSome (fun L2 =>
                if digitsAt s (st+L0+k1+L1+k2) L2 then
                  firstSome (fun k3 =>
                    firstSome (fun L3 =>
                      if digitsAt s (st+L0+k1+L1+k2+L2+k3) L3 &&
                          wordBoundaryAt s (st+L0+k1+L1+k2+L2+k3+L3) then
                        some (st+L0+k1+L1+k2+L2+k3+L3)
                      else none) [4, 3]) (sepOptAdv s (st+L0+k1+L1+k2+L2))
                else none) [4, 3]) (sepOptAdv s (st+L0+k1+L1))
          else none) [4, 3]) (sepOptAdv s (st+L0))
    else none) [3, 2, 1]

/-- Matcher of the full telephone pattern (leading boundary, alternation). -/
def tryPhone (s : List Char) (i : Nat) : Option (Nat × Unit) :=
  if wordBoundaryAt s i then
    match tryPhoneA s i with
    | some e => some (e, ())
    | none =>
      match tryPhoneB s i with
      | some e => some (e, ())
      | none => none
  else none

/-- The grouping loop of `replace_phone`: 3 digits per group while at least 6
remain, otherwise up to 4. -/
def phoneGroupsAux : Nat → List Char → List (List Char)
  | 0, _ => []
  | f+1, ds =>
    match ds with
    | [] => []
    | _ :: _ =>
      let g := if 6 ≤ ds.length then 3 else min 4 ds.length
      ds.take g :: phoneGroupsAux f (ds.drop g)

/-- Python `KHMER_NUMBERS.get(int(digit), digit)`. -/
def phoneDigitWord (c : Char) : List Char :=
  match lookupKN (pyDigitVal c) with
  | some w => w.data
  | none => [c]

/-- Embeds the `replace_phone` closure of `normalize_telephone`. -/
def replace_phone (m : List Char) : List Char :=
  let digits := m.filter (fun c => !(c = '-' || c = '.' || pyIsSpace c))
  let gs := phoneGroupsAux digits.length digits
  joinSp (List.intercalate ["sil".data] (gs.map (fun g => g.map phoneDigitWord)))

/-- Embeds `normalize_telephone(text)`. -/
def normalize_telephone (s : List Char) : Except String (List Char) :=
  reSubM tryPhone (fun s i e _ => .ok (replace_phone (sliceLC s i (e - i)))) s

/-- Matcher of the time pattern with groups (hours, minutes, optional seconds). -/
def tryTime (s : List Char) (i : Nat) :
    Option (Nat × (List Char × List Char × Option (List Char))) :=
  firstSome (fun a =>
    if digitsAt s i a && charAt s (i+a) = some ':' && digitsAt s (i+a+1) 2 then
      let e0 := i+a+1+2
      if charAt s e0 = some ':' && digitsAt s (e0+1) 2 then
        some (e0+3, (sliceLC s i a, sliceLC s (i+a+1) 2, some (sliceLC s (e0+1) 2)))
      else some (e0, (sliceLC s i a, sliceLC s (i+a+1) 2, none))
    else none) [2, 1]

/-- Embeds the `replace_time` closure of `normalize_time`. -/
def replace_time (td : Int → Option String) (g1 g2 : List Char) (g3 : Option (List Char)) :
    Except String (List Char) := do
  let hours := toNatDigits g1
  let minutes := toNatDigits g2
  let hk ← number_to_khmer_words td (hours : Int)
  let base := "ម៉ោង ".data ++ hk.data
  let withMin ←
    if 0 < minutes then do
      let mk ← number_to_khmer_words td (minutes : Int)
      Except.ok (base ++ [' '] ++ mk.data ++ " នាទី".data)
    else Except.ok base
  let withSec ←
    match g3 with
    | some gs =>
      let secs := toNatDigits gs
      if 0 < secs then do
        let sk ← number_to_khmer_words td (secs : Int)
        Except.ok (withMin ++ [' '] ++ sk.data ++ " វិនាទី".data)
      else Except.ok withMin
    | none => Except.ok withMin
  let period :=
    if 5 ≤ hours ∧ hours < 12 then " ពេលព្រឹក".data
    else if 12 ≤ hours ∧ hours < 17 then " ពេលរសៀល".data
    else if 17 ≤ hours ∧ hours < 21 then " ល្ងាច".data
    else if 21 ≤ hours ∨ hours < 5 then " យប់".data
    else []
  .ok (withSec ++ period)

/-- Embeds `normalize_time(text)`. -/
def normalize_time (td : Int → Option String) (s : List Char) : Except String (List Char) :=
  reSubM tryTime (fun _ _ _ g => replace_time td g.1 g.2.1 g.2.2) s

/-- The CURRENCY_NAMES dictionary. -/
def currencyNamesList : List (String × String) :=
  [("usd", "ដុល្លារ អាមេរិក"), ("gbp", "ផោន"), ("jpy", "យ៉េន ជប៉ុន"), ("khr", "រៀល"),
   ("thb", "បាត"), ("aud", "ដុល្លារ អូស្រ្តាលី"), ("chf", "ហ្វ្រង់ ស្វីស")]

def getCurrency (k : String) : String := (currencyNamesList.lookup k).getD ""

/-- The `_normalize_fractional_part` helper: leading zeros digit by digit,
the rest as a cardinal. -/
def normalizeFractionalPart (td : Int → Option String) (fp : List Char) :
    Except String (List Char) := do
  let zeros := (fp.takeWhile (fun c => c = '0')).length
  let restPart := fp.drop zeros
  let zerosWords := List.replicate zeros "សូន្យ".data
  if restPart ≠ [] then do
    let w ← number_to_khmer_words td ((toNatDigits restPart : Nat) : Int)
    .ok (joinSp (zerosWords ++ [w.data]))
  else .ok (joinSp zerosWords)

/-- Matcher of the dollar amount pattern, group = the amount without the sign. -/
def tryMoneyDollar (s : List Char) (i : Nat) : Option (Nat × List Char) :=
  if charAt s i = some '$' then
    let d1 := digitRunLen s (i+1)
    if d1 = 0 then none
    else
      let f1 :=
        if charAt s (i+1+d1) = some '.' && 0 < digitRunLen s (i+1+d1+1) then
          1 + digitRunLen s (i+1+d1+1)
        else 0
      some (i+1+d1+f1, sliceLC s (i+1) (d1+f1))
  else none

/-- Matcher of the riel amount pattern. -/
def tryMoneyRiel (s : List Char) (i : Nat) : Option (Nat × List Char) :=
  let d1 := digitRunLen s i
  if d1 = 0 then none
  else
    let f1 :=
      if charAt s (i+d1) = some '.' && 0 < digitRunLen s (i+d1+1) then
        1 + digitRunLen s (i+d1+1)
      else 0
    let p := i+d1+f1
    let w := spaceRunLen s p
    if isLitAt s (p+w) "រៀល".data then some (p + w + "រៀល".data.length, sliceLC s i (d1+f1))
    else none

/-- Common body of `replace_money_dollar` and `replace_money_riel`. -/
def replace_money_amount (td : Int → Option String) (amount : List Char) (cur : String) :
    Except String (List Char) := do
  if amount.contains '.' then
    let ip := amount.takeWhile (fun c => c ≠ '.')
    let fp := (amount.dropWhile (fun c => c ≠ '.')).drop 1
    let ik ← number_to_khmer_words td ((toNatDigits ip : Nat) : Int)
    let fk ← normalizeFractionalPart td fp
    .ok (ik.data ++ " ក្បៀស ".data ++ fk ++ [' '] ++ cur.data)
  else do
    let ik ← number_to_khmer_words td ((toNatDigits amount : Nat) : Int)
    .ok (ik.data ++ [' '] ++ cur.data)

/-- Embeds `normalize_money(text)`. -/
def normalize_money (td : Int → Option String) (s : List Char) : Except String (List Char) := do
  let t1 ← reSubM tryMoneyDollar
    (fun _ _ _ a => replace_money_amount td a (getCurrency "usd")) s
  reSubM tryMoneyRiel (fun _ _ _ a => replace_money_amount td a (getCurrency "khr")) t1

/-- The measure pattern's unit alternation, in source order (tried left to
right by the regex engine). -/
def measureUnitsPattern : List String :=
  ["km", "kg", "m", "g", "l", "liter", "meter", "gram", "kilogram", "kilometer",
   "percent", "%"]

/-- The MEASURE_UNITS dictionary. -/
def measureUnitsList : List (String × String) :=
  [("meter", "ម៉ែត្រ"), ("km", "គីឡូ ម៉ែត្រ"), ("kilometer", "គីឡូ ម៉ែត្រ"),
   ("gram", "ក្រាម"), ("kg", "គីឡូ ក្រាម"), ("kilogram", "គីឡូ ក្រាម"),
   ("liter", "លីត្រ"), ("second", "វិនាទី"), ("minute", "នាទី"), ("hour", "ម៉ោង"),
   ("day", "ថ្ងៃ"), ("week", "សប្ដាហ៍"), ("month", "ខែ"), ("year", "ឆ្នាំ"),
   ("percent", "ភាគរយ"), ("%", "ភាគរយ")]

/-- Matcher of the measure pattern with groups (number, unit as matched). -/
def tryMeasure (s : List Char) (i : Nat) : Option (Nat × (List Char × List Char)) :=
  let d := digitRunLen s i
  if d = 0 then none
  else
    let w := spaceRunLen s (i+d)
    let p := i+d+w
    firstSome (fun (u : String) =>
      if ciLitAt s p u.data then
        some (p + u.data.length, (sliceLC s i d, sliceLC s p u.data.length))
      else none) measureUnitsPattern

/-- Embeds the `replace_measure` closure of `normalize_measure`. -/
def replace_measure (td : Int → Option String) (num unit : List Char) :
    Except String (List Char) := do
  let nk ← number_to_khmer_words td ((toNatDigits num : Nat) : Int)
  let ul := unit.map Char.toLower
  let uk :=
    match measureUnitsList.lookup (String.mk ul) with
    | some v => v.data
    | none => ul
  .ok (nk.data ++ [' '] ++ uk)

/-- Embeds `normalize_measure(text)`. -/
def normalize_measure (td : Int → Option String) (s : List Char) :
    Except String (List Char) :=
  reSubM tryMeasure (fun _ _ _ g => replace_measure td g.1 g.2) s

/-- Matcher of the decimal pattern (optional minus, digits, dot or comma,
digits); the group is the whole match. -/
def tryDecimal (s : List Char) (i : Nat) : Option (Nat × List Char) :=
  let st := if charAt s i = some '-' then i+1 else i
  let d1 := digitRunLen s st
  if d1 = 0 then none
  else
    match charAt s (st+d1) with
    | some c =>
      if (c = '.' || c = ',') && 0 < digitRunLen s (st+d1+1) then
        some (st+d1+1+digitRunLen s (st+d1+1),
          sliceLC s i (st+d1+1+digitRunLen s (st+d1+1) - i))
      else none
    | none => none

/-- Embeds the `replace_decimal` closure of `normalize_decimal`. -/
def replace_decimal (td : Int → Option String) (m : List Char) :
    Except String (List Char) :=
  let isNeg := m.head? = some '-'
  let np := m.dropWhile (fun c => c = '-')
  if np.contains '.' ∨ np.contains ',' then do
    let sep : Char := if np.contains '.' then '.' else ','
    let ip := np.takeWhile (fun c => c ≠ sep)
    let fp := (np.dropWhile (fun c => c ≠ sep)).drop 1
    let ik ←
      if ip ≠ [] then do
        let w ← number_to_khmer_words td ((toNatDigits ip : Nat) : Int)
        Except.ok w.data
      else Except.ok "សូន្យ".data
    let fk ← if fp ≠ [] then normalizeFractionalPart td fp else Except.ok ([] : List Char)
    let base := (if isNeg then "ដក ".data else []) ++ ik
    .ok (if fk ≠ [] then base ++ " ក្បៀស ".data ++ fk else base)
  else .ok m

/-- Embeds `normalize_decimal(text)`. -/
def normalize_decimal (td : Int → Option String) (s : List Char) :
    Except String (List Char) :=
  reSubM tryDecimal (fun _ _ _ m => replace_decimal td m) s

/-- Matcher of the cardinal pattern: a boundary-delimited run of ASCII or
Khmer digits. -/
def tryCardinal (s : List Char) (i : Nat) : Option (Nat × List Char) :=
  if wordBoundaryAt s i then
    let d := digitRunLen s i
    if d = 0 then none
    else if wordBoundaryAt s (i+d) then some (i+d, sliceLC s i d) else none
  else none

/-- Embeds `khmer_digit_to_arabic(text)`. -/
def khmer_digit_to_arabic (s : List Char) : List Char :=
  s.map (fun c => if isKhmerDigit c then Char.ofNat (c.toNat - 0x17E0 + 48) else c)

/-- Embeds the `replace_number` closure of `normalize_cardinal` (the `int()`
call cannot fail on a digit-run match, so the ValueError branch is dead). -/
def replace_number (td : Int → Option String) (m : List Char) :
    Except String (List Char) := do
  let w ← number_to_khmer_words td ((toNatDigits (khmer_digit_to_arabic m) : Nat) : Int)
  .ok w.data

/-- Embeds `normalize_cardinal(text)`. -/
def normalize_cardinal (td : Int → Option String) (s : List Char) :
    Except String (List Char) :=
  reSubM tryCardinal (fun _ _ _ m => replace_number td m) s

/-! ## normalize_khmer_text and khmer_g2p -/

/-- Embeds `normalize_khmer_text(text)` with all flags at their defaults
(cardinals, decimals, fractions, dates, time, money, telephone, measure,
electronic and emoticons on; digit mode off).  A `None` input reaches
`re.sub(email_pattern, ..., None)` inside `normalize_electronic` and raises
TypeError there, before the `None` check any caller may perform later. -/
def normalize_khmer_text (td : Int → Option String) (input : Option (List Char)) :
    Except String (List Char) :=
  match input with
  | none => .error "TypeError: expected string or bytes-like object"
  | some text => do
    let t1 ← normalize_electronic td text
    let t2 := normalize_emoticons t1
    let t3 ← normalize_telephone t2
    let t4 ← normalize_time td t3
    let t5 ← normalize_money td t4
    let t6 ← normalize_measure td t5
    let t7 ← reSubM tryYearDate
      (fun s i e g => replace_year_date td (sliceLC s i (e - i)) g.1 g.2.1 g.2.2) t6
    let t8 ← reSubM tryFraction (fun _ _ _ g => replace_fraction_safe td g.1 g.2) t7
    let t9 ← reSubM tryNoYearDate
      (fun s i e g => replace_no_year_date td s i e g.1 g.2) t8
    let t10 ← normalize_decimal td t9
    normalize_cardinal td t10

/-- Result type of `khmer_g2p` (`Union[str, List[str]]`). -/
inductive G2PResult where
  | asString : List Char → G2PResult
  | asList : List (List Char) → G2PResult
deriving Repr, DecidableEq

/-- One step of `re.sub(r"\s+", " ", text)`: each maximal whitespace run
becomes a single space. -/
def collapseWsAux : Nat → List Char → List Char
  | 0, s => s
  | _+1, [] => []
  | f+1, c :: rest =>
    if pyIsSpace c then ' ' :: collapseWsAux f (rest.dropWhile pyIsSpace)
    else c :: collapseWsAux f rest

def collapseWs (s : List Char) : List Char := collapseWsAux s.length s

/-- Python `str.strip()`. -/
def pyStrip (s : List Char) : List Char :=
  ((s.dropWhile pyIsSpace).reverse.dropWhile pyIsSpace).reverse

/-- Embeds `khmer_g2p(text, auto_segment, return_word_list)`.  `lex` is the
module lexicon `_LEXICON`; `segWs`/`segMl` are the word set and max length the
segmenter uses (the module globals).  The Python `if text is None` check after
normalization is unreachable for string results and a `None` input raises
inside normalization first. -/
def khmer_g2p (td : Int → Option String) (lex : List (List Char × List (List Char)))
    (segWs : List (List Char)) (segMl : Nat) (input : Option (List Char))
    (auto_segment return_word_list : Bool) : Except String G2PResult := do
  let t0 ← normalize_khmer_text td input
  let t1 ←
    if auto_segment = true ∧ t0 ≠ [] then segment_khmer_text t0 "bidirectional" segWs segMl
    else Except.ok t0
  let t2 := pyStrip (collapseWs t1)
  if t2 = [] then
    if return_word_list then .ok (G2PResult.asList []) else .ok (G2PResult.asString [])
  else
    let words := (splitOnChar ' ' t2).map (fun tok =>
      match lex.lookup tok with
      | some phones => joinSp phones
      | none => tok)
    if return_word_list then .ok (G2PResult.asList words)
    else .ok (G2PResult.asString (joinSp words))

/-! ### Helper lemmas for segmentation -/

theorem findLongest_bounds {s : List Char} {ws : List (List Char)} :
    ∀ {k m : Nat}, findLongest s ws k = some m → 1 ≤ m ∧ m ≤ k := by
  intro k
  induction k with
  | zero => intro m h; simp [findLongest] at h
  | succ k ih =>
    intro m h
    rw [findLongest] at h
    split at h
    · cases h; omega
    · have := ih h; omega

theorem findLongestRev_bounds {s : List Char} {ws : List (List Char)} :
    ∀ {k m : Nat}, findLongestRev s ws k = some m → 1 ≤ m ∧ m ≤ k := by
  intro k
  induction k with
  | zero => intro m h; simp [findLongestRev] at h
  | succ k ih =>
    intro m h
    rw [findLongestRev] at h
    split at h
    · cases h; omega
    · have := ih h; omega

theorem lmAux_join (ws : List (List Char)) (ml : Nat) :
    ∀ fuel s, s.length ≤ fuel → (lmAux ws ml fuel s).flatten = s := by
  intro fuel
  induction fuel with
  | zero =>
    intro s hs
    have : s = [] := by
      cases s with
      | nil => rfl
      | cons c r => simp at hs
    subst this; rfl
  | succ f ih =>
    intro s hs
    cases s with
    | nil => rfl
    | cons c rest =>
      cases hfl : findLongest (c :: rest) ws (min ml (c :: rest).length) with
      | some k =>
        have hk := findLongest_bounds hfl
        have hlen : ((c :: rest).drop k).length ≤ f := by
          simp only [List.length_drop, List.length_cons]
          simp only [List.length_cons] at hs
          omega
        simp only [lmAux, hfl, List.flatten]
        rw [ih _ hlen]
        exact List.take_append_drop k (c :: rest)
      | none =>
        have hlen : rest.length ≤ f := by
          simp only [List.length_cons] at hs
          omega
        simp only [lmAux, hfl, List.flatten]
        rw [ih _ hlen]
        rfl

theorem rlmAux_join (ws : List (List Char)) (ml : Nat) :
    ∀ fuel s, s.length ≤ fuel → (rlmAux ws ml fuel s).flatten = s := by
  intro fuel
  induction fuel with
  | zero =>
    intro s hs
    have : s = [] := by
      cases s with
      | nil => rfl
      | cons c r => simp at hs
    subst this; rfl
  | succ f ih =>
    intro s hs
    cases s with
    | nil => rfl
    | cons c rest =>
      cases hfl : findLongestRev (c :: rest) ws (min ml (c :: rest).length) with
      | some k =>
        have hk := findLongestRev_bounds hfl
        have hlen : ((c :: rest).take ((c :: rest).length - k)).length ≤ f := by
          simp only [List.length_take, List.length_cons]
          simp only [List.length_cons] at hs
          omega
        simp only [rlmAux, hfl, List.flatten_append, List.flatten]
        rw [ih _ hlen]
        simp only [List.append_nil]
        exact List.take_append_drop _ (c :: rest)
      | none =>
        have hlen : ((c :: rest).take ((c :: rest).length - 1)).length ≤ f := by
          simp only [List.length_take, List.length_cons]
          simp only [List.length_cons] at hs
          omega
        simp only [rlmAux, hfl, List.flatten_append, List.flatten]
        rw [ih _ hlen]
        simp only [List.append_nil]
        exact List.take_append_drop _ (c :: rest)

theorem longest_matching_join (text : List Char) (ws : List (List Char)) (ml : Nat) :
    (longest_matching text ws ml).flatten = text :=
  lmAux_join ws ml text.length text le_rfl

theorem reverse_longest_matching_join (text : List Char) (ws : List (List Char)) (ml : Nat) :
    (reverse_longest_matching text ws ml).flatten = text :=
  rlmAux_join ws ml text.length text le_rfl

theorem bidirectional_matching_cases (text : List Char) (ws : List (List Char)) (ml : Nat) :
    bidirectional_matching text ws ml = longest_matching text ws ml ∨
      bidirectional_matching text ws ml = reverse_longest_matching text ws ml := by
  unfold bidirectional_matching
  by_cases h0 : text = []
  · subst h0
    left
    simp [longest_matching, lmAux]
  · simp only [if_neg h0]
    split
    · exact Or.inl rfl
    · split
      · exact Or.inl rfl
      · split
        · exact Or.inr rfl
        · split
          · exact Or.inl rfl
          · split
            · exact Or.inr rfl
            · exact Or.inl rfl

/-- C1: concatenating the tokens of forward, reverse and bidirectional
segmentation of the de-spaced input reproduces the de-spaced input exactly. -/
theorem c1_round_trip (text : List Char) (ws : List (List Char)) (ml : Nat) :
    (longest_matching (despace text) ws ml).flatten = despace text ∧
      (reverse_longest_matching (despace text) ws ml).flatten = despace text ∧
      (bidirectional_matching (despace text) ws ml).flatten = despace text := by
  refine ⟨longest_matching_join _ ws ml, reverse_longest_matching_join _ ws ml, ?_⟩
  rcases bidirectional_matching_cases (despace text) ws ml with h | h
  · rw [h]; exact longest_matching_join _ ws ml
  · rw [h]; exact reverse_longest_matching_join _ ws ml

theorem length_flatten_eq_sum (l : List (List Char)) :
    (l.map List.length).sum = l.flatten.length := by
  induction l with
  | nil => rfl
  | cons a t ih => rw [List.map_cons, List.sum_cons, List.flatten_cons, List.length_append, ih]

/-- C6: the selection logic of bidirectional_matching: identical results are
returned as is; otherwise the shorter token list wins; on a count tie the
higher average token length wins; otherwise the forward result is returned. -/
theorem c6_bidirectional_selection (text : List Char) (ws : List (List Char)) (ml : Nat) :
    (longest_matching text ws ml = reverse_longest_matching text ws ml →
      bidirectional_matching text ws ml = longest_matching text ws ml) ∧
    ((longest_matching text ws ml).length < (reverse_longest_matching text ws ml).length →
      bidirectional_matching text ws ml = longest_matching text ws ml) ∧
    ((reverse_longest_matching text ws ml).length < (longest_matching text ws ml).length →
      bidirectional_matching text ws ml = reverse_longest_matching text ws ml) ∧
    (longest_matching text ws ml ≠ reverse_longest_matching text ws ml →
      avgTokenLen (longest_matching text ws ml) > avgTokenLen (reverse_longest_matching text ws ml) →
      ¬ (longest_matching text ws ml).length < (reverse_longest_matching text ws ml).length →
      ¬ (reverse_longest_matching text ws ml).length < (longest_matching text ws ml).length →
      bidirectional_matching text ws ml = longest_matching text ws ml) ∧
    (longest_matching text ws ml ≠ reverse_longest_matching text ws ml →
      avgTokenLen (reverse_longest_matching text ws ml) > avgTokenLen (longest_matching text ws ml) →
      ¬ (longest_matching text ws ml).length < (reverse_longest_matching text ws ml).length →
      ¬ (reverse_longest_matching text ws ml).length < (longest_matching text ws ml).length →
      bidirectional_matching text ws ml = reverse_longest_matching text ws ml) ∧
    (longest_matching text ws ml ≠ reverse_longest_matching text ws ml →
      avgTokenLen (longest_matching text ws ml) = avgTokenLen (reverse_longest_matching text ws ml) →
      ¬ (longest_matching text ws ml).length < (reverse_longest_matching text ws ml).length →
      ¬ (reverse_longest_matching text ws ml).length < (longest_matching text ws ml).length →
      bidirectional_matching text ws ml = longest_matching text ws ml) := by
  by_cases h0 : text = []
  · subst h0
    exact ⟨fun _ => rfl, fun _ => rfl, fun _ => rfl, fun _ _ _ _ => rfl,
      fun h _ _ _ => absurd rfl h, fun _ _ _ _ => rfl⟩
  · have hbid : bidirectional_matching text ws ml =
        (if longest_matching text ws ml = reverse_longest_matching text ws ml then
          longest_matching text ws ml
        else if (longest_matching text ws ml).length <
            (reverse_longest_matching text ws ml).length then
          longest_matching text ws ml
        else if (reverse_longest_matching text ws ml).length <
            (longest_matching text ws ml).length then
          reverse_longest_matching text ws ml
        else if avgTokenLen (longest_matching text ws ml) >
            avgTokenLen (reverse_longest_matching text ws ml) then
          longest_matching text ws ml
        else if avgTokenLen (reverse_longest_matching text ws ml) >
            avgTokenLen (longest_matching text ws ml) then
          reverse_longest_matching text ws ml
        else longest_matching text ws ml) := by
      simp only [bidirectional_matching, if_neg h0]
    refine ⟨?_, ?_, ?_, ?_, ?_, ?_⟩
    · intro h; rw [hbid, if_pos h]
    · intro h
      have hne : longest_matching text ws ml ≠ reverse_longest_matching text ws ml := by
        intro e; rw [e] at h; omega
      rw [hbid, if_neg hne, if_pos h]
    · intro h
      have hne : longest_matching text ws ml ≠ reverse_longest_matching text ws ml := by
        intro e; rw [e] at h; omega
      rw [hbid, if_neg hne, if_neg (by omega), if_pos h]
    · intro hne havg h1 h2
      rw [hbid, if_neg hne, if_neg h1, if_neg h2, if_pos havg]
    · intro hne havg h1 h2
      rw [hbid, if_neg hne, if_neg h1, if_neg h2, if_neg (not_lt.mpr (le_of_lt havg)),
        if_pos havg]
    · intro hne havg h1 h2
      rw [hbid, if_neg hne, if_neg h1, if_neg h2, if_neg (by rw [havg]; exact lt_irrefl _),
        if_neg (by rw [havg]; exact lt_irrefl _)]

theorem c6_witness :
    bidirectional_matching ['a', 'b'] [] 0 = longest_matching ['a', 'b'] [] 0 :=
  (c6_bidirectional_selection ['a', 'b'] [] 0).1 (by decide)

/-- C10: when the forward and reverse segmentations have the same number of
tokens their average token lengths are necessarily equal (both concatenate to
the input), so the tie-break always selects the forward result. -/
theorem c10_tie_returns_forward (text : List Char) (ws : List (List Char)) (ml : Nat)
    (h : (longest_matching text ws ml).length = (reverse_longest_matching text ws ml).length) :
    avgTokenLen (longest_matching text ws ml) =
      avgTokenLen (reverse_longest_matching text ws ml) ∧
    bidirectional_matching text ws ml = longest_matching text ws ml := by
  have hsf : ((longest_matching text ws ml).map List.length).sum = text.length := by
    rw [length_flatten_eq_sum, longest_matching_join]
  have hsr : ((reverse_longest_matching text ws ml).map List.length).sum = text.length := by
    rw [length_flatten_eq_sum, reverse_longest_matching_join]
  have havg : avgTokenLen (longest_matching text ws ml) =
      avgTokenLen (reverse_longest_matching text ws ml) := by
    unfold avgTokenLen
    rw [hsf, hsr, h]
  refine ⟨havg, ?_⟩
  by_cases h0 : text = []
  · subst h0; rfl
  · by_cases heq : longest_matching text ws ml = reverse_longest_matching text ws ml
    · simp only [bidirectional_matching, if_neg h0, if_pos heq]
    · simp only [bidirectional_matching, if_neg h0, if_neg heq, h, lt_irrefl, if_false,
        havg, gt_iff_lt, if_neg (lt_irrefl _)]

theorem c10_witness :
    avgTokenLen (longest_matching ['a', 'b'] [] 0) =
      avgTokenLen (reverse_longest_matching ['a', 'b'] [] 0) ∧
    bidirectional_matching ['a', 'b'] [] 0 = longest_matching ['a', 'b'] [] 0 :=
  c10_tie_returns_forward ['a', 'b'] [] 0 (by decide)

/-- C7 fails as stated: with empty input text, segment_khmer_text returns the
text unchanged before validating the method selector, so an unknown method does
not raise. -/
theorem c7_counterexample : segment_khmer_text [] "x" [['a']] 1 = Except.ok [] := rfl

/-- C7 amended: for nonempty, not all-whitespace input and a nonempty word set,
an unknown method selector raises ValueError. -/
theorem c7_amended_raises (text : List Char) (method : String) (ws : List (List Char))
    (ml : Nat) (hne : text ≠ []) (hsp : ¬ text.all pyIsSpace = true) (hws : ws ≠ [])
    (hm1 : method ≠ "forward") (hm2 : method ≠ "reverse") (hm3 : method ≠ "bidirectional") :
    ∃ e, segment_khmer_text text method ws ml = Except.error e := by
  refine ⟨"Unknown method: " ++ method ++ ". Use forward, reverse, or bidirectional", ?_⟩
  simp only [segment_khmer_text, hne, hsp, hws, hm1, hm2, hm3, decide_False, Bool.false_or,
    if_neg, ite_false, if_false]
  simp [hne, hsp, hws, hm1, hm2, hm3]

theorem c7_witness : ∃ e, segment_khmer_text ['a', 'b'] "x" [['z']] 1 = Except.error e :=
  c7_amended_raises ['a', 'b'] "x" [['z']] 1 (by decide) (by decide) (by decide)
    (by decide) (by decide) (by decide)

/-- C8 fails as stated: with an empty word set the function returns the
de-spaced text, not the original text: on input with an internal space the
output differs from the input. -/
theorem c8_counterexample :
    segment_khmer_text ['a', ' ', 'b'] "bidirectional" [] 0 = Except.ok ['a', 'b'] ∧
      (['a', 'b'] : List Char) ≠ ['a', ' ', 'b'] := by
  exact ⟨rfl, by decide⟩

/-- C8 amended: with an empty word set the function never fails and returns the
input with ASCII spaces removed (the input itself when it is empty or
whitespace-only); empty input always yields an empty result without raising. -/
theorem c8_amended_behavior (text : List Char) (method : String) (ws : List (List Char))
    (ml : Nat) :
    (ws = [] → segment_khmer_text text method ws ml =
      Except.ok (if text = [] || text.all pyIsSpace then text else despace text)) ∧
    segment_khmer_text [] method ws ml = Except.ok [] := by
  constructor
  · intro hws
    by_cases hc : (text = [] || text.all pyIsSpace : Bool) = true
    · simp only [segment_khmer_text, hc, if_pos, ite_true]
    · simp only [segment_khmer_text, hc, ite_false, if_neg, if_pos hws]
      simp [despace]
  · rfl

theorem c8_witness :
    segment_khmer_text ['a', ' ', 'b'] "x" [] 0 =
      Except.ok (if (['a', ' ', 'b'] : List Char) = [] || (['a', ' ', 'b'] : List Char).all pyIsSpace
        then ['a', ' ', 'b'] else despace ['a', ' ', 'b']) :=
  (c8_amended_behavior ['a', ' ', 'b'] "x" [] 0).1 rfl

theorem exceptBind_ok {α β : Type} (a : α) (f : α → Except String β) :
    (Except.ok a : Except String α) >>= f = f a := rfl

theorem lookupKN_tens (n : Nat) (h1 : 21 ≤ n) (h2 : n < 100) :
    ∃ s, lookupKN (n / 10 * 10) = some s := by
  have hd : n / 10 = 2 ∨ n / 10 = 3 ∨ n / 10 = 4 ∨ n / 10 = 5 ∨ n / 10 = 6 ∨
      n / 10 = 7 ∨ n / 10 = 8 ∨ n / 10 = 9 := by omega
  rcases hd with h | h | h | h | h | h | h | h <;> rw [h] <;> exact ⟨_, rfl⟩

theorem lookupKN_ones (n : Nat) (h : ¬ n % 10 = 0) :
    ∃ s, lookupKN (n % 10) = some s := by
  have hd : n % 10 = 1 ∨ n % 10 = 2 ∨ n % 10 = 3 ∨ n % 10 = 4 ∨ n % 10 = 5 ∨
      n % 10 = 6 ∨ n % 10 = 7 ∨ n % 10 = 8 ∨ n % 10 = 9 := by omega
  rcases hd with h | h | h | h | h | h | h | h | h <;> rw [h] <;> exact ⟨_, rfl⟩

theorem scaleBranch_ok (td : Int → Option String) (f S n : Nat) (u : String)
    (hu : getKN S = .ok u)
    (ha : ∃ s, coreNum td f (n / S) = .ok s) (hb : ∃ s, coreNum td f (n % S) = .ok s) :
    ∃ s, (do
      let a ← coreNum td f (n / S)
      let u2 ← getKN S
      if n % S = 0 then Except.ok (a ++ " " ++ u2)
      else do
        let b ← coreNum td f (n % S)
        Except.ok (a ++ " " ++ u2 ++ " " ++ b)) = Except.ok s := by
  obtain ⟨a, ha⟩ := ha
  obtain ⟨b, hb⟩ := hb
  rw [ha, hu]
  simp only [exceptBind_ok]
  by_cases hz : n % S = 0
  · rw [if_pos hz]; exact ⟨_, rfl⟩
  · rw [if_neg hz, hb]; simp only [exceptBind_ok]; exact ⟨_, rfl⟩

theorem coreNum_ok (td : Int → Option String) :
    ∀ fuel n, n < fuel → ∃ s, coreNum td fuel n = .ok s := by
  intro fuel
  induction fuel with
  | zero => intro n hn; omega
  | succ f ih =>
    intro n hn
    rw [coreNum]
    cases htd : td (n : Int) with
    | some s => exact ⟨s, rfl⟩
    | none =>
      cases hlk : lookupKN n with
      | some s => exact ⟨s, rfl⟩
      | none =>
        by_cases h1 : 21 ≤ n ∧ n < 100
        · rw [if_pos h1]
          obtain ⟨t, ht⟩ := lookupKN_tens n h1.1 h1.2
          by_cases hz : n % 10 = 0
          · rw [if_pos hz]
            simp only [getKN, ht]
            exact ⟨t, rfl⟩
          · rw [if_neg hz]
            obtain ⟨o, ho⟩ := lookupKN_ones n hz
            simp only [getKN, ht, ho, exceptBind_ok]
            exact ⟨_, rfl⟩
        · rw [if_neg h1]
          by_cases h2 : 100 ≤ n ∧ n < 1000
          · rw [if_pos h2]
            exact scaleBranch_ok td f 100 n "រយ" rfl (ih _ (by omega)) (ih _ (by omega))
          · rw [if_neg h2]
            by_cases h3 : 1000 ≤ n ∧ n < 10000
            · rw [if_pos h3]
              exact scaleBranch_ok td f 1000 n "ពាន់" rfl (ih _ (by omega)) (ih _ (by omega))
            · rw [if_neg h3]
              by_cases h4 : 10000 ≤ n ∧ n < 100000
              · rw [if_pos h4]
                exact scaleBranch_ok td f 10000 n "ម៉ឺន" rfl (ih _ (by omega)) (ih _ (by omega))
              · rw [if_neg h4]
                by_cases h5 : 100000 ≤ n ∧ n < 1000000
                · rw [if_pos h5]
                  exact scaleBranch_ok td f 100000 n "សែន" rfl (ih _ (by omega))
                    (ih _ (by omega))
                · rw [if_neg h5]
                  by_cases h6 : 1000000 ≤ n ∧ n < 10000000
                  · rw [if_pos h6]
                    exact scaleBranch_ok td f 1000000 n "លាន" rfl (ih _ (by omega))
                      (ih _ (by omega))
                  · rw [if_neg h6]
                    exact ⟨Nat.repr n, rfl⟩

theorem number_to_khmer_words_ok (td : Int → Option String) (num : Int) :
    ∃ s, number_to_khmer_words td num = .ok s := by
  unfold number_to_khmer_words
  cases htd : td num with
  | some s => exact ⟨s, rfl⟩
  | none =>
    by_cases hneg : num < 0
    · obtain ⟨s, hs⟩ := coreNum_ok td (num.natAbs + 1) num.natAbs (by omega)
      rw [if_pos hneg, hs]
      exact ⟨_, rfl⟩
    · obtain ⟨s, hs⟩ := coreNum_ok td (num.toNat + 1) num.toNat (by omega)
      rw [if_neg hneg, hs]
      exact ⟨s, rfl⟩

/-- C4: spot values of the numeral converter with no testdata override, and the
negative-number rule: a negative value is rendered as the negative marker
"ដក " prepended to the rendering of its absolute value. -/
theorem c4_spot_values :
    number_to_khmer_words noTestdata 0 = .ok "សូន្យ" ∧
    number_to_khmer_words noTestdata 15 = .ok "ដប់ ប្រាំ" ∧
    number_to_khmer_words noTestdata 21 = .ok "ម្ភៃ មួយ" ∧
    number_to_khmer_words noTestdata 100 = .ok "រយ" ∧
    number_to_khmer_words noTestdata 101 = .ok "មួយ រយ មួយ" ∧
    number_to_khmer_words noTestdata (-5) = .ok "ដក ប្រាំ" ∧
    ∀ n : Int, n < 0 → number_to_khmer_words noTestdata n =
      (number_to_khmer_words noTestdata (-n)).map (fun s => "ដក " ++ s) := by
  refine ⟨rfl, rfl, rfl, rfl, rfl, rfl, ?_⟩
  intro n hn
  have h1 : (-n).toNat = n.natAbs := by omega
  have e1 : number_to_khmer_words noTestdata n =
      (coreNum noTestdata (n.natAbs + 1) n.natAbs).map (fun s => "ដក " ++ s) := by
    unfold number_to_khmer_words noTestdata
    rw [if_pos hn]
  have e2 : number_to_khmer_words noTestdata (-n) =
      coreNum noTestdata ((-n).toNat + 1) (-n).toNat := by
    unfold number_to_khmer_words noTestdata
    rw [if_neg (by omega : ¬ (-n) < 0)]
  rw [e1, e2, h1]

theorem c4_witness :
    number_to_khmer_words noTestdata (-5) =
      (number_to_khmer_words noTestdata (-(-5))).map (fun s => "ដក " ++ s) :=
  c4_spot_values.2.2.2.2.2.2 (-5) (by decide)

/-- C5: the numeral converter is total on the documented domain: it returns a
string (never an error) for every integer of magnitude at most ten to the
twelfth, and past the largest recursively handled scale (ten million, for
values not in the KHMER_NUMBERS table) it falls back to the literal decimal
digit string. -/
theorem c5_total_on_domain :
    (∀ n : Int, -(10^12) ≤ n → n ≤ 10^12 →
      ∃ s, number_to_khmer_words noTestdata n = .ok s) ∧
    (∀ n : Nat, 10000000 < n → lookupKN n = none →
      number_to_khmer_words noTestdata (n : Int) = .ok (Nat.repr n)) := by
  constructor
  · intro n _ _
    exact number_to_khmer_words_ok noTestdata n
  · intro n hbig hlk
    unfold number_to_khmer_words noTestdata
    rw [if_neg (by omega : ¬ (n : Int) < 0)]
    have ht : (n : Int).toNat = n := by omega
    rw [ht]
    rw [coreNum]
    simp only [hlk]
    rw [if_neg (by omega), if_neg (by omega), if_neg (by omega), if_neg (by omega),
      if_neg (by omega), if_neg (by omega)]

theorem c5_witness :
    (∃ s, number_to_khmer_words noTestdata 2455 = .ok s) ∧
      number_to_khmer_words noTestdata ((20000000 : Nat) : Int) =
        .ok (Nat.repr 20000000) :=
  ⟨c5_total_on_domain.1 2455 (by norm_num) (by norm_num),
    c5_total_on_domain.2 20000000 (by norm_num) rfl⟩

/-- C2 fails as stated: in normalize_khmer_text the fraction pass rewrites the
two-part slash sequence "5/6" (both operands within day/month range, no date
context) as a fraction, so it is not left unmodified in the output. -/
theorem c2_counterexample :
    normalize_khmer_text noTestdata (some "5/6".data) = .ok "ប្រាំ លើ ប្រាំមួយ".data ∧
      "ប្រាំ លើ ប្រាំមួយ".data ≠ "5/6".data := by
  exact ⟨rfl, by decide⟩

/-- C2 amended: replace_fraction_safe rewrites every matched two-part slash
sequence as a fraction, with no range condition on the operands. -/
theorem c2_fraction_always_rewrites (g1 g2 : List Char) (h1 : g1 ≠ [])
    (hd1 : g1.all pyIsDigit = true) (_h2 : g2 ≠ []) :
    ∃ nk dk : String,
      number_to_khmer_words noTestdata ((toNatDigits g1 : Nat) : Int) = .ok nk ∧
      number_to_khmer_words noTestdata ((toNatDigits g2 : Nat) : Int) = .ok dk ∧
      replace_fraction_safe noTestdata g1 g2 = .ok (nk.data ++ " លើ ".data ++ dk.data) := by
  obtain ⟨c, rest, rfl⟩ : ∃ c rest, g1 = c :: rest := by
    cases g1 with
    | nil => exact absurd rfl h1
    | cons c rest => exact ⟨c, rest, rfl⟩
  have hc : pyIsDigit c = true := by
    simp only [List.all_cons, Bool.and_eq_true] at hd1
    exact hd1.1
  have hcne : c ≠ '-' := by
    intro e
    subst e
    simp [pyIsDigit, isKhmerDigit] at hc
  have hdrop : (c :: rest).dropWhile (fun x => x = '-') = c :: rest := by
    rw [List.dropWhile_cons]
    simp [hcne]
  have hhead : ¬ ((c :: rest).head? = some '-') := by
    simp [List.head?, hcne]
  obtain ⟨nk, hnk⟩ :=
    number_to_khmer_words_ok noTestdata ((toNatDigits (c :: rest) : Nat) : Int)
  obtain ⟨dk, hdk⟩ := number_to_khmer_words_ok noTestdata ((toNatDigits g2 : Nat) : Int)
  refine ⟨nk, dk, hnk, hdk, ?_⟩
  simp only [replace_fraction_safe]
  rw [hdrop, hnk, hdk]
  simp only [exceptBind_ok]
  rw [if_neg hhead]
  simp

theorem c2_witness :
    ∃ nk dk : String,
      number_to_khmer_words noTestdata ((toNatDigits "5".data : Nat) : Int) = .ok nk ∧
      number_to_khmer_words noTestdata ((toNatDigits "6".data : Nat) : Int) = .ok dk ∧
      replace_fraction_safe noTestdata "5".data "6".data =
        .ok (nk.data ++ " លើ ".data ++ dk.data) :=
  c2_fraction_always_rewrites "5".data "6".data (by decide) (by decide) (by decide)

/-- C9: replace_year_date rewrites every three-part match whose month is in
1..12 as the year-qualified date rendering, and the full pipeline normalizes
"3/1/2455" to day 3, month name មករា and the year 2455 spelled out. -/
theorem c9_year_date (m0 g1 g2 g3 : List Char) (hm1 : 1 ≤ toNatDigits g2)
    (hm2 : toNatDigits g2 ≤ 12) :
    (∃ dk yk : String,
      number_to_khmer_words noTestdata ((toNatDigits g1 : Nat) : Int) = .ok dk ∧
      number_to_khmer_words noTestdata ((toNatDigits g3 : Nat) : Int) = .ok yk ∧
      replace_year_date noTestdata m0 g1 g2 g3 =
        .ok (dk.data ++ " ខែ ".data ++ getKhmerMonth (toNatDigits g2) ++
          " ឆ្នាំ ".data ++ yk.data)) ∧
    normalize_khmer_text noTestdata (some "3/1/2455".data) =
      .ok "បី ខែ មករា ឆ្នាំ ពីរ ពាន់ បួន រយ ហាសិប ប្រាំ".data := by
  constructor
  · obtain ⟨dk, hdk⟩ :=
      number_to_khmer_words_ok noTestdata ((toNatDigits g1 : Nat) : Int)
    obtain ⟨yk, hyk⟩ :=
      number_to_khmer_words_ok noTestdata ((toNatDigits g3 : Nat) : Int)
    refine ⟨dk, yk, hdk, hyk, ?_⟩
    unfold replace_year_date
    rw [if_pos ⟨hm1, hm2⟩, hdk, hyk]
    rfl
  · rfl

theorem c9_witness :
    (∃ dk yk : String,
      number_to_khmer_words noTestdata ((toNatDigits "3".data : Nat) : Int) = .ok dk ∧
      number_to_khmer_words noTestdata ((toNatDigits "2455".data : Nat) : Int) = .ok yk ∧
      replace_year_date noTestdata [] "3".data "1".data "2455".data =
        .ok (dk.data ++ " ខែ ".data ++ getKhmerMonth (toNatDigits "1".data) ++
          " ឆ្នាំ ".data ++ yk.data)) ∧
    normalize_khmer_text noTestdata (some "3/1/2455".data) =
      .ok "បី ខែ មករា ឆ្នាំ ពីរ ពាន់ បួន រយ ហាសិប ប្រាំ".data :=
  c9_year_date [] "3".data "1".data "2455".data (by decide) (by decide)

/-- C3 is contradicted by the code on None input: khmer_g2p first calls
normalize_khmer_text, whose first re.sub raises TypeError on None, before the
None check in khmer_g2p can run; the claimed empty result is never produced. -/
theorem c3_null_input_raises (td : Int → Option String)
    (lex : List (List Char × List (List Char))) (segWs : List (List Char)) (segMl : Nat)
    (a r : Bool) :
    khmer_g2p td lex segWs segMl none a r =
      .error "TypeError: expected string or bytes-like object" := rfl
